import Mathlib

/-!
Shallow embedding of the task execution and evaluation engine of
`project_spec_manager` (TypeScript sources: the task executor exporting
`executeTask` / `executeAllTasks`, its evaluator `evaluateTask` /
`evaluateWithLanguageModel`, and `src/lessonsLogger.ts`).

External effects (process spawns via `Bun.spawn`, language-model queries via
`queryLanguageModel`, branch/worktree creation via `createBranch`, the file
system for LESSONS.md) are modelled by oracle environments, and each modelled
function additionally returns the list of external events it performed and the
final working directory, so that claims about "never invoked" and
"restored on every path" are statable.  Thrown JavaScript errors are
modelled by `Except String` values carrying the error message.
-/

namespace PSM

/-- JavaScript truthiness of an optional string field (`undefined` and `""`
are falsy). -/
def truthy : Option String → Bool
  | none => false
  | some s => !(s == "")

/-- Boolean list-prefix test on characters (mirrors JS `String.startsWith`
at the character-list level; helper for `strContains`). -/
def charsPrefix : List Char → List Char → Bool
  | [], _ => true
  | _ :: _, [] => false
  | a :: as, b :: bs => a == b && charsPrefix as bs

/-- Does `pat` occur at some position of `s`?  Helper for `strContains`. -/
def charsContains (pat : List Char) : List Char → Bool
  | [] => charsPrefix pat []
  | c :: cs => charsPrefix pat (c :: cs) || charsContains pat cs

/-- JS `s.includes(pat)`: substring containment. -/
def strContains (s pat : String) : Bool :=
  charsContains pat.data s.data

/-- JS `s.toLowerCase()` (ASCII, which is all the engine compares). -/
def strToLower (s : String) : String :=
  ⟨s.data.map Char.toLower⟩

/-- JS `s.trim()`: strip leading and trailing whitespace. -/
def strTrim (s : String) : String :=
  ⟨((s.data.dropWhile Char.isWhitespace).reverse.dropWhile Char.isWhitespace).reverse⟩

/-- JS `s.substring(0, n)`. -/
def strTake (s : String) (n : Nat) : String :=
  ⟨s.data.take n⟩

/-- Split a character list at every occurrence of `sep` (keeping empty
pieces, as JS `split` does). -/
def splitChars (sep : Char) : List Char → List (List Char)
  | [] => [[]]
  | c :: cs =>
      match splitChars sep cs with
      | [] => if c == sep then [[], []] else [[c]]
      | g :: gs => if c == sep then [] :: g :: gs else (c :: g) :: gs

/-- JS `s.split(' ')`, as used to turn a command string into an argv. -/
def strSplitSpace (s : String) : List String :=
  (splitChars ' ' s.data).map fun l => ⟨l⟩

/-! ## Data model (interfaces from the task executor source) -/

/-- `TaskEvaluation.type`: `'test' | 'command'`. -/
inductive EvalType where
  | test
  | command
deriving DecidableEq, Repr

/-- interface `TaskEvaluation { type; command?; check_prompt? }`. -/
structure TaskEvaluation where
  type : EvalType
  command : Option String := none
  check_prompt : Option String := none
deriving DecidableEq, Repr

/-- interface `Task { name; done?; prompt; evaluation? }` (the optional
`done` collapses to its JS truthiness). -/
structure Task where
  name : String
  done : Bool := false
  prompt : String
  evaluation : Option TaskEvaluation := none
deriving DecidableEq, Repr

/-- interface `AiderConfig`. -/
structure AiderConfig where
  model : String
  architect_mode : Bool
  editable_files : List String
  readonly_files : List String
  retries : Nat
  test_command : Option String := none
deriving DecidableEq, Repr

/-- interface `Spec`. -/
structure Spec where
  aider_config : AiderConfig
  objective : String
  implementation_details : String
  tasks : List Task
deriving DecidableEq, Repr

/-- interface `TaskResult { success; attempts; error?; output? }`. -/
structure TaskResult where
  success : Bool
  attempts : Nat
  error : Option String := none
  output : Option String := none
deriving DecidableEq, Repr

/-- Captured outcome of a spawned external process: exit code plus the
captured stdout and stderr texts. -/
structure ProcOut where
  exitCode : Nat
  stdout : String
  stderr : String
deriving DecidableEq, Repr

/-- One observable external action of the engine. -/
inductive Event where
  /-- `Bun.spawn` of the given argv (coding agent or evaluation command). -/
  | spawn (argv : List String)
  /-- `queryLanguageModel` with the given prompt. -/
  | lm (prompt : String)
  /-- `process.chdir` to the given path. -/
  | chdir (path : String)
deriving DecidableEq, Repr

/-- Number of processes spawned in an event trace. -/
def spawnCount (evs : List Event) : Nat :=
  evs.countP fun e => match e with | .spawn _ => true | _ => false

/-- Number of language-model queries in an event trace. -/
def lmCount (evs : List Event) : Nat :=
  evs.countP fun e => match e with | .lm _ => true | _ => false

/-- The working directory after replaying the `chdir` events of a trace,
starting from `cwd0`. -/
def finalCwd (cwd0 : String) (evs : List Event) : String :=
  evs.foldl (fun c e => match e with | .chdir p => p | _ => c) cwd0

/-- Oracle environment for one `executeTask` call: the behaviour of the
external collaborators it consumes.  `run` answers every `Bun.spawn` of a
given argv (`Except.error` models a thrown launch failure such as ENOENT);
`lm` answers `queryLanguageModel` by prompt (`Except.error` models a thrown
API error); `createBranch` is the VCS collaborator; `worktreeExists` is the
`existsSync` check on the worktree path. -/
structure Env where
  createBranch : Except String String
  worktreeExists : Bool
  run : List String → Except String ProcOut
  lm : String → Except String String

/-- Result record `{ success: boolean; error?: string }` returned by the
evaluator and the language-model judge. -/
structure EvalResult where
  success : Bool
  error : Option String := none
deriving DecidableEq, Repr

/-! ## Judgment client (`evaluateWithLanguageModel`) -/

/-- The response-normalisation block of `evaluateWithLanguageModel`:
lowercase + trim, exact `yes`/`no` match, otherwise best-effort keyword
fallback with a truncated quote of the raw reply on failure. -/
def judgeResponse (response : String) : EvalResult :=
  let normalizedResponse := strTrim (strToLower response)
  if normalizedResponse ≠ "yes" ∧ normalizedResponse ≠ "no" then
    let success := strContains normalizedResponse "yes" ||
                   strContains normalizedResponse "pass" ||
                   strContains normalizedResponse "succeed" ||
                   strContains normalizedResponse "correct"
    { success := success
      error := if success then none else
        some ("Language model evaluation could not confirm success. Response: \"" ++
              strTake response 100 ++ "...\"") }
  else
    let success := normalizedResponse == "yes"
    { success := success
      error := if success then none else
        some "Language model evaluation returned \"no\"" }

/-- `evaluateWithLanguageModel(checkPrompt, commandOutput)`: builds the full
prompt, queries the language model, normalises the reply; a thrown API error
is caught and yields failure with the "skipped due to API error" message. -/
def evaluateWithLanguageModel (env : Env) (cp commandOutput : String) :
    EvalResult × List Event :=
  let fullPrompt := cp ++ "\n\nCommand output:\n" ++ commandOutput ++
    "\n\nPlease respond with only 'yes' or 'no'."
  match env.lm fullPrompt with
  | .error msg =>
      ({ success := false
         error := some ("Language model evaluation skipped due to API error: " ++
           msg ++ ". Please review the task output manually.") },
       [Event.lm fullPrompt])
  | .ok response => (judgeResponse response, [Event.lm fullPrompt])

/-! ## Evaluator (`evaluateTask`) -/

/-- `evaluateTask(spec, task, aiderOutput)`.  Dispatches on the evaluation
variant; spawned process launch failures are caught by its try/catch and
reported as `Error in evaluation: ...`.  The third argument (the agent's
stdout) is unused by the source function and kept for fidelity. -/
def evaluateTask (env : Env) (spec : Spec) (task : Task)
    (_aiderOutput : String) : EvalResult × List Event :=
  match task.evaluation with
  | none => ({ success := true }, [])
  | some ev =>
    match ev.type with
    | .test =>
      if !truthy spec.aider_config.test_command then
        ({ success := false
           error := some "Test command not specified in aider_config.test_command" }, [])
      else
        let testCommand := spec.aider_config.test_command.getD ""
        let argv := strSplitSpace testCommand
        match env.run argv with
        | .error msg =>
            ({ success := false, error := some ("Error in evaluation: " ++ msg) },
             [Event.spawn argv])
        | .ok p =>
            if p.exitCode ≠ 0 then
              ({ success := false
                 error := some ("Test command failed with exit code " ++
                   toString p.exitCode ++ ": " ++ p.stderr) },
               [Event.spawn argv])
            else
              ({ success := true }, [Event.spawn argv])
    | .command =>
      if !truthy ev.command then
        ({ success := false
           error := some "Command not specified in task.evaluation.command" }, [])
      else
        let cmd := ev.command.getD ""
        let argv := strSplitSpace cmd
        match env.run argv with
        | .error msg =>
            ({ success := false, error := some ("Error in evaluation: " ++ msg) },
             [Event.spawn argv])
        | .ok p =>
            if p.exitCode ≠ 0 then
              ({ success := false
                 error := some ("Command failed with exit code " ++
                   toString p.exitCode ++ ": " ++ p.stderr) },
               [Event.spawn argv])
            else if truthy ev.check_prompt then
              let (r, evs) :=
                evaluateWithLanguageModel env (ev.check_prompt.getD "") p.stdout
              (r, Event.spawn argv :: evs)
            else
              ({ success := true }, [Event.spawn argv])

/-! ## Task execution engine (`executeTask`) -/

/-- `prepareTaskPrompt(spec, task)`: labelled concatenation of objective,
implementation details and task prompt. -/
def prepareTaskPrompt (spec : Spec) (task : Task) : String :=
  "Objective:\n" ++ spec.objective ++ "\n\nTechnical Notes:\n" ++
  spec.implementation_details ++ "\n\nTask Prompt:\n" ++ task.prompt

/-- The aider command line built per attempt from `aider_config`
(model, optional architect flag, optional file lists, prompt last). -/
def aiderArgv (spec : Spec) (prompt : String) : List String :=
  ["aider", "--model", spec.aider_config.model] ++
  (if spec.aider_config.architect_mode then ["--architect"] else []) ++
  (if spec.aider_config.editable_files.length > 0 then
      "--files" :: spec.aider_config.editable_files else []) ++
  (if spec.aider_config.readonly_files.length > 0 then
      "--readonly" :: spec.aider_config.readonly_files else []) ++
  [prompt]

/-- The inner-catch error classification of `executeTask` for a spawn that
threw (ENOENT / EACCES / ETIMEDOUT substring heuristics). -/
def classifyLaunchError (msg : String) : String :=
  if strContains msg "ENOENT" then
    "Aider executable not found. Please ensure Aider is installed and in your PATH."
  else if strContains msg "EACCES" then
    "Permission denied when executing Aider. Check file permissions."
  else if strContains msg "ETIMEDOUT" then
    "Connection timed out when executing Aider. Check your network connection."
  else
    "Error executing Aider: " ++ msg

/-- The stderr-substring classification of a non-zero aider exit. -/
def classifyAiderExit (exitCode : Nat) (stderr : String) : String :=
  if strContains stderr "command not found" then
    "Aider is not installed or not in PATH. Please ensure Aider is installed and accessible."
  else if strContains stderr "API key" then
    "Aider API key error: " ++ stderr ++ ". Please check your API key configuration."
  else if strContains stderr "rate limit" then
    "API rate limit exceeded: " ++ stderr ++ ". Please try again later."
  else if strContains stderr "timeout" then
    "Aider execution timed out: " ++ stderr ++ ". Consider simplifying the task or increasing timeout limits."
  else
    "Aider exited with code " ++ toString exitCode ++ ": " ++ stderr

/-- The outer-catch error classification of `executeTask` (worktree /
branch / chdir substring heuristics on the thrown message). -/
def classifyOuterError (msg : String) : String :=
  if strContains msg "Worktree directory does not exist" then
    "Failed to access worktree: " ++ msg ++ ". Check if the worktree was properly created."
  else if strContains msg "Branch" then
    "Branch error: " ++ msg ++ ". Check version control system status."
  else if strContains msg "chdir" then
    "Failed to change directory: " ++ msg ++ ". Check if the directory exists and is accessible."
  else
    "Error in task execution: " ++ msg

/-- State of `executeTask`'s retry loop when it exits: the local variables
`success`, `attempts`, `lastError`, `lastOutput`, plus the trace of external
events the loop performed. -/
structure LoopOut where
  success : Bool
  attempts : Nat
  lastError : String
  lastOutput : String
  events : List Event
deriving Repr

/-- The `while (!success && attempts < maxRetries)` retry loop of
`executeTask`, with `fuel = maxRetries - attempts` remaining iterations.
Each iteration increments `attempts`, spawns aider, classifies a launch
failure or non-zero exit as the attempt's failure, and otherwise consults
the evaluator (absent evaluation means immediate success). -/
def runAttempts (env : Env) (spec : Spec) (task : Task) (prompt : String) :
    Nat → Nat → String → String → List Event → LoopOut
  | 0, attempts, lastError, lastOutput, evs =>
      { success := false, attempts, lastError, lastOutput, events := evs }
  | fuel + 1, attempts, lastError, lastOutput, evs =>
      let attempts := attempts + 1
      let argv := aiderArgv spec prompt
      match env.run argv with
      | .error msg =>
          runAttempts env spec task prompt fuel attempts
            (classifyLaunchError msg) lastOutput (evs ++ [Event.spawn argv])
      | .ok p =>
          let lastOutput := p.stdout
          if p.exitCode ≠ 0 then
            runAttempts env spec task prompt fuel attempts
              (classifyAiderExit p.exitCode p.stderr) lastOutput
              (evs ++ [Event.spawn argv])
          else
            match task.evaluation with
            | none =>
                { success := true, attempts, lastError, lastOutput
                  events := evs ++ [Event.spawn argv] }
            | some _ =>
                let (er, eevs) := evaluateTask env spec task p.stdout
                let evs := evs ++ [Event.spawn argv] ++ eevs
                if er.success then
                  { success := true, attempts, lastError, lastOutput, events := evs }
                else
                  let lastError :=
                    match er.error with
                    | some e => if e == "" then "Evaluation failed without specific error" else e
                    | none => "Evaluation failed without specific error"
                  runAttempts env spec task prompt fuel attempts lastError lastOutput evs

/-- Outcome of one `executeTask` call: the returned `TaskResult`, the
process working directory on return, and the trace of external events. -/
structure ExecOutcome where
  result : TaskResult
  finalDir : String
  events : List Event
deriving Repr

/-- `join(process.cwd(), worktreePath)`. -/
def joinPath (cwd p : String) : String := cwd ++ "/" ++ p

/-- `executeTask(spec, task, specName)` run with current working directory
`cwd0`.  Creates the branch/worktree (a thrown error is caught by the outer
catch and classified), checks the worktree path exists, changes directory
into it, runs the retry loop, changes back, and assembles the `TaskResult`.
Note that the outer catch paths return before the directory was changed and
before `result.output` was assigned. -/
def executeTask (env : Env) (spec : Spec) (task : Task) (_specName : String)
    (cwd0 : String) : ExecOutcome :=
  match env.createBranch with
  | .error msg =>
      { result := { success := false, attempts := 0
                    error := some (classifyOuterError msg) }
        finalDir := cwd0, events := [] }
  | .ok worktreePath =>
      let absoluteWorktreePath := joinPath cwd0 worktreePath
      if !env.worktreeExists then
        { result := { success := false, attempts := 0
                      error := some (classifyOuterError
                        ("Worktree directory does not exist: " ++ absoluteWorktreePath)) }
          finalDir := cwd0, events := [] }
      else
        let originalCwd := cwd0
        let prompt := prepareTaskPrompt spec task
        let maxRetries := spec.aider_config.retries
        let lp := runAttempts env spec task prompt maxRetries 0 "" "" []
        { result := { success := lp.success
                      attempts := lp.attempts
                      error := if lp.success then none else
                        some ("Task failed after " ++ toString lp.attempts ++
                              " attempts. Last error: " ++ lp.lastError)
                      output := some lp.lastOutput }
          finalDir := originalCwd
          events := Event.chdir absoluteWorktreePath :: lp.events ++
                    [Event.chdir originalCwd] }

/-! ## `executeAllTasks` -/

/-- Execution telemetry collected per executed task and handed to the
lessons logger. -/
structure TaskExecutionData where
  specName : String
  taskName : String
  attempts : Nat
  success : Bool
  error : Option String := none
  output : Option String := none
deriving DecidableEq, Repr

/-- Outcome of `executeAllTasks`: the returned results, the task list with
its in-place `done` mutations, the telemetry array passed to the lessons
logger, and (ghost) the absolute indices of the tasks that were executed. -/
structure RunOutcome where
  results : List TaskResult
  tasks : List Task
  telemetry : List TaskExecutionData
  executed : List Nat
deriving Repr

/-- The `executionData` record `executeAllTasks` builds per executed task. -/
def mkTelemetry (nm : String) (task : Task) (r : TaskResult) :
    TaskExecutionData :=
  { specName := nm, taskName := task.name, attempts := r.attempts
    success := r.success, error := r.error, output := r.output }

/-- The task loop of `executeAllTasks`: skip tasks already `done`, execute
each pending task (the oracle environment of the task at absolute index
`i` is `env i`), push its result and telemetry, mark the task done on
success, and break on the first failure leaving the remaining tasks
untouched. -/
def runTasks (env : Nat → Env) (spec : Spec) (nm cwd : String) :
    Nat → List Task → RunOutcome
  | _, [] => { results := [], tasks := [], telemetry := [], executed := [] }
  | idx, task :: rest =>
      if task.done then
        let o := runTasks env spec nm cwd (idx + 1) rest
        { o with tasks := task :: o.tasks }
      else
        let r := (executeTask (env idx) spec task nm cwd).result
        if r.success then
          let o := runTasks env spec nm cwd (idx + 1) rest
          { results := r :: o.results
            tasks := { task with done := true } :: o.tasks
            telemetry := mkTelemetry nm task r :: o.telemetry
            executed := idx :: o.executed }
        else
          { results := [r], tasks := task :: rest
            telemetry := [mkTelemetry nm task r], executed := [idx] }

/-- Unfolding equation of `runTasks` at a task already marked done. -/
theorem runTasks_cons_done (env : Nat → Env) (spec : Spec) (nm cwd : String)
    (idx : Nat) (t : Task) (rest : List Task) (hd : t.done = true) :
    runTasks env spec nm cwd idx (t :: rest) =
      { results := (runTasks env spec nm cwd (idx + 1) rest).results
        tasks := t :: (runTasks env spec nm cwd (idx + 1) rest).tasks
        telemetry := (runTasks env spec nm cwd (idx + 1) rest).telemetry
        executed := (runTasks env spec nm cwd (idx + 1) rest).executed } := by
  simp [runTasks, hd]

/-- Unfolding equation of `runTasks` at a pending task whose execution
succeeds. -/
theorem runTasks_cons_success (env : Nat → Env) (spec : Spec) (nm cwd : String)
    (idx : Nat) (t : Task) (rest : List Task) (hd : t.done = false)
    (hs : (executeTask (env idx) spec t nm cwd).result.success = true) :
    runTasks env spec nm cwd idx (t :: rest) =
      { results := (executeTask (env idx) spec t nm cwd).result ::
          (runTasks env spec nm cwd (idx + 1) rest).results
        tasks := { t with done := true } ::
          (runTasks env spec nm cwd (idx + 1) rest).tasks
        telemetry := mkTelemetry nm t (executeTask (env idx) spec t nm cwd).result ::
          (runTasks env spec nm cwd (idx + 1) rest).telemetry
        executed := idx :: (runTasks env spec nm cwd (idx + 1) rest).executed } := by
  simp [runTasks, hd, hs]

/-- Unfolding equation of `runTasks` at a pending task whose execution
fails: the loop breaks, the remaining tasks stay untouched. -/
theorem runTasks_cons_failure (env : Nat → Env) (spec : Spec) (nm cwd : String)
    (idx : Nat) (t : Task) (rest : List Task) (hd : t.done = false)
    (hs : (executeTask (env idx) spec t nm cwd).result.success = false) :
    runTasks env spec nm cwd idx (t :: rest) =
      { results := [(executeTask (env idx) spec t nm cwd).result]
        tasks := t :: rest
        telemetry := [mkTelemetry nm t (executeTask (env idx) spec t nm cwd).result]
        executed := [idx] } := by
  simp [runTasks, hd, hs]

/-- `executeAllTasks(spec, specName, mainRepoRoot)` restricted to its task
loop; the trailing `logLessons` call only logs a count to the console (its
errors are caught) and is modelled separately by `logLessons` below, fed
with the `telemetry` component returned here. -/
def executeAllTasks (env : Nat → Env) (spec : Spec) (nm cwd : String) :
    RunOutcome :=
  runTasks env spec nm cwd 0 spec.tasks

/-! ## Lessons logger (`src/lessonsLogger.ts`) -/

/-- Oracle environment for the lessons logger: the language-model oracle for
`generateLesson`, the value of `getFormattedTimestamp()`, and whether the
file-system write operations of the record at index `i` succeed (the
creation of LESSONS.md and the append, separately). -/
structure LessonEnv where
  lm : String → Except String String
  timestamp : String
  createOk : Nat → Bool
  appendOk : Nat → Bool

/-- The prompt `generateLesson` sends to the language model. -/
def lessonPrompt (d : TaskExecutionData) : String :=
  "\nPlease analyze the following task execution data and generate a concise lesson about any unexpected issues or corrections that were needed:\n\nSpec: " ++
  d.specName ++ "\nTask: " ++ d.taskName ++ "\nAttempts: " ++ toString d.attempts ++
  "\nOutcome: " ++ (if d.success then "Success" else "Failure") ++ "\n" ++
  (if truthy d.error then "Error: " ++ d.error.getD "" else "") ++
  "\n\nTask Output:\n" ++
  (if truthy d.output then d.output.getD "" else "No output available") ++
  "\n\nPlease provide a concise, specific lesson that would be valuable for future development. Focus on unexpected issues, corrections, or insights that would help avoid similar problems in the future. Keep your response under 200 words and make it directly applicable to this specific task.\n"

/-- `generateLesson(executionData)`: validates the identifying fields,
queries the language model, and never throws — every failure is downgraded
to a fallback lesson text. -/
def generateLesson (env : LessonEnv) (d : TaskExecutionData) : String :=
  if d.specName == "" || d.taskName == "" then
    "Lesson generation skipped: Missing required execution data fields (specName or taskName). Please ensure all required execution data is provided."
  else
    match env.lm (lessonPrompt d) with
    | .error msg =>
        "Lesson generation failed due to API error: " ++ msg ++
        ". Please check your API key configuration and network connectivity."
    | .ok response =>
        if strTrim response == "" then
          "No lesson could be generated. The language model returned an empty response. Please review the task execution manually."
        else
          strTrim response

/-- `formatLesson(executionData, lessonText)`: the Markdown section appended
to LESSONS.md. -/
def formatLesson (timestamp : String) (d : TaskExecutionData)
    (lessonText : String) : String :=
  "\n## " ++ d.specName ++ " - " ++ timestamp ++ "\n\n- **Task:** " ++
  d.taskName ++ "\n- **Outcome:** " ++
  (if d.success then "Success" else "Failure") ++ " (" ++ toString d.attempts ++
  " attempt" ++ (if d.attempts ≠ 1 then "s" else "") ++ ")\n- **Lesson:** " ++
  lessonText ++ "\n\n---\n"

/-- The fixed header written when LESSONS.md is created. -/
def lessonsHeader : String :=
  "# Development Task Lessons\n\nThis file contains automatically generated lessons from task executions, highlighting unexpected issues and corrections.\n\n---\n"

/-- `appendLesson(mainRepoRoot, formattedLesson)` acting on the LESSONS.md
content `fs` (`none` = file absent).  Returns whether the append succeeded
and the new file content; the create-write and the append-write can each
fail (`createOk` / `appendOk`), every failure is reported as `false`. -/
def appendLesson (mainRepoRoot formattedLesson : String) (fs : Option String)
    (createOk appendOk : Bool) : Bool × Option String :=
  if mainRepoRoot == "" then (false, fs)
  else if strTrim formattedLesson == "" then (false, fs)
  else
    match fs with
    | none =>
        if !createOk then (false, fs)
        else if !appendOk then (false, some lessonsHeader)
        else (true, some (lessonsHeader ++ formattedLesson))
    | some content =>
        if !appendOk then (false, fs)
        else (true, some (content ++ formattedLesson))

/-- `logLesson(mainRepoRoot, executionData)` for the record at index `i`:
generate, format, append. -/
def logLesson (env : LessonEnv) (mainRepoRoot : String) (fs : Option String)
    (d : TaskExecutionData) (i : Nat) : Bool × Option String :=
  appendLesson mainRepoRoot
    (formatLesson env.timestamp d (generateLesson env d)) fs
    (env.createOk i) (env.appendOk i)

/-- `logLessons(mainRepoRoot, executionDataArray)`: processes the records in
input order, counting the successful appends; additionally returns the final
LESSONS.md content and (ghost) the per-record success flags. -/
def logLessons (env : LessonEnv) (mainRepoRoot : String) :
    List TaskExecutionData → Nat → Option String → Nat × Option String × List Bool
  | [], _, fs => (0, fs, [])
  | d :: rest, i, fs =>
      let (ok, fs1) := logLesson env mainRepoRoot fs d i
      let (n, fs2, flags) := logLessons env mainRepoRoot rest (i + 1) fs1
      ((if ok then 1 else 0) + n, fs2, ok :: flags)

/-! ## Theorems -/

/-- C1: every call to `executeTask` restores the process working directory to
its pre-execution value on every exit path — the outer-catch paths return
before the directory was changed, and the loop performs no `chdir`, so the
trailing `chdir originalCwd` always brings the directory back. -/
theorem C1_working_directory_restored (env : Env) (spec : Spec) (task : Task)
    (nm cwd0 : String) :
    finalCwd cwd0 (executeTask env spec task nm cwd0).events = cwd0 := by
  unfold executeTask
  cases henv : env.createBranch with
  | error msg => simp [finalCwd]
  | ok w =>
    cases hw : env.worktreeExists with
    | false => simp [finalCwd]
    | true => simp [finalCwd, List.foldl_append]

/-- C4: with `retries = 0` the retry loop never runs: `executeTask` returns
`attempts = 0` and `success = false`, and no process (in particular not the
coding agent) is ever spawned. -/
theorem C4_zero_retries (env : Env) (spec : Spec) (task : Task)
    (nm cwd0 : String) (h : spec.aider_config.retries = 0) :
    (executeTask env spec task nm cwd0).result.attempts = 0 ∧
    (executeTask env spec task nm cwd0).result.success = false ∧
    spawnCount (executeTask env spec task nm cwd0).events = 0 := by
  unfold executeTask
  cases henv : env.createBranch with
  | error msg => simp [spawnCount]
  | ok w =>
    cases hw : env.worktreeExists with
    | false => simp [spawnCount]
    | true => simp [h, runAttempts, spawnCount]

/-- Concrete environment for the C4 witness: worktree acquired, agent would
succeed if invoked. -/
def c4Env : Env :=
  { createBranch := .ok "wt", worktreeExists := true
    run := fun _ => .ok { exitCode := 0, stdout := "done", stderr := "" }
    lm := fun _ => .ok "yes" }

/-- Spec with `retries = 0` for the C4 witness. -/
def c4Spec : Spec :=
  { aider_config :=
      { model := "m", architect_mode := false, editable_files := []
        readonly_files := [], retries := 0 }
    objective := "o", implementation_details := "d"
    tasks := [{ name := "t1", prompt := "p" }] }

/-- C4 witness: the zero-retries theorem at a concrete input. -/
theorem C4_zero_retries_witness :
    (executeTask c4Env c4Spec { name := "t1", prompt := "p" } "s" "/r").result.attempts = 0 ∧
    (executeTask c4Env c4Spec { name := "t1", prompt := "p" } "s" "/r").result.success = false ∧
    spawnCount (executeTask c4Env c4Spec { name := "t1", prompt := "p" } "s" "/r").events = 0 :=
  C4_zero_retries c4Env c4Spec { name := "t1", prompt := "p" } "s" "/r" rfl

/-- C5: the judgment step lowercases and trims the reply; exact `"yes"` is
success, exact `"no"` is failure; any other reply succeeds iff the
normalized text contains one of `"yes"`, `"pass"`, `"succeed"`, `"correct"`,
and a failing fallback quotes the (truncated) raw reply — in particular the
reply `"Unfortunately, I cannot confirm success."` fails with a quoting
error message. -/
theorem C5_judgment_normalization (response : String) :
    (strTrim (strToLower response) = "yes" →
      judgeResponse response = { success := true, error := none }) ∧
    (strTrim (strToLower response) = "no" →
      judgeResponse response =
        { success := false
          error := some "Language model evaluation returned \"no\"" }) ∧
    (strTrim (strToLower response) ≠ "yes" → strTrim (strToLower response) ≠ "no" →
      ((judgeResponse response).success =
        (strContains (strTrim (strToLower response)) "yes" ||
         strContains (strTrim (strToLower response)) "pass" ||
         strContains (strTrim (strToLower response)) "succeed" ||
         strContains (strTrim (strToLower response)) "correct")) ∧
      ((judgeResponse response).success = false →
        (judgeResponse response).error =
          some ("Language model evaluation could not confirm success. Response: \"" ++
                strTake response 100 ++ "...\""))) ∧
    judgeResponse "Unfortunately, I cannot confirm success." =
      { success := false
        error := some "Language model evaluation could not confirm success. Response: \"Unfortunately, I cannot confirm success....\"" } := by
  refine ⟨fun h => ?_, fun h => ?_, fun h1 h2 => ?_, by decide⟩
  · simp [judgeResponse, h]
  · simp [judgeResponse, h]
  · have hsucc : (judgeResponse response).success =
        (strContains (strTrim (strToLower response)) "yes" ||
         strContains (strTrim (strToLower response)) "pass" ||
         strContains (strTrim (strToLower response)) "succeed" ||
         strContains (strTrim (strToLower response)) "correct") := by
      simp [judgeResponse, h1, h2]
    refine ⟨hsucc, fun hs => ?_⟩
    have hb : (strContains (strTrim (strToLower response)) "yes" ||
         strContains (strTrim (strToLower response)) "pass" ||
         strContains (strTrim (strToLower response)) "succeed" ||
         strContains (strTrim (strToLower response)) "correct") = false := by
      rw [← hsucc]; exact hs
    simp [judgeResponse, h1, h2, hb]

/-- C5 witness: the normalization theorem applied at concrete replies. -/
theorem C5_judgment_normalization_witness :
    judgeResponse " Yes" = { success := true, error := none } ∧
    judgeResponse "NO " =
      { success := false
        error := some "Language model evaluation returned \"no\"" } ∧
    (judgeResponse "it passed").success = true := by
  have h1 := (C5_judgment_normalization " Yes").1 (by decide)
  have h2 := (C5_judgment_normalization "NO ").2.1 (by decide)
  have h3 := ((C5_judgment_normalization "it passed").2.2.1 (by decide) (by decide)).1
  exact ⟨h1, h2, by rw [h3]; decide⟩

/-- C6: a `Command`-type evaluation whose command exits non-zero fails
immediately with a message containing exit code and stderr; the language
model is never queried, and the outcome is the same for every value of
`check_prompt`. -/
theorem C6_command_nonzero_short_circuit (env : Env) (spec : Spec)
    (task : Task) (out : String) (ev : TaskEvaluation) (p : ProcOut)
    (hev : task.evaluation = some ev) (hty : ev.type = .command)
    (hcmd : truthy ev.command = true)
    (hrun : env.run (strSplitSpace (ev.command.getD "")) = .ok p)
    (hexit : p.exitCode ≠ 0) :
    evaluateTask env spec task out =
      ({ success := false
         error := some ("Command failed with exit code " ++
                        toString p.exitCode ++ ": " ++ p.stderr) },
       [Event.spawn (strSplitSpace (ev.command.getD ""))]) ∧
    lmCount (evaluateTask env spec task out).2 = 0 ∧
    ∀ cp, evaluateTask env spec
        { task with evaluation := some { ev with check_prompt := cp } } out =
      evaluateTask env spec task out := by
  obtain ⟨ty, cmd, cp0⟩ := ev
  cases hty
  have hmain : evaluateTask env spec task out =
      ({ success := false
         error := some ("Command failed with exit code " ++
                        toString p.exitCode ++ ": " ++ p.stderr) },
       [Event.spawn (strSplitSpace (cmd.getD ""))]) := by
    simp only [evaluateTask, hev]
    rw [hcmd]
    simp only [Bool.not_true, Bool.false_eq_true, if_false, hrun]
    simp [hexit]
  refine ⟨hmain, ?_, ?_⟩
  · rw [hmain]; simp [lmCount]
  · intro cp
    rw [hmain]
    simp only [evaluateTask]
    rw [hcmd]
    simp only [Bool.not_true, Bool.false_eq_true, if_false, hrun]
    simp [hexit]

/-- Concrete environment for the C6 witness: the evaluation command exits 7. -/
def c6Env : Env :=
  { createBranch := .ok "wt", worktreeExists := true
    run := fun _ => .ok { exitCode := 7, stdout := "partial", stderr := "broken" }
    lm := fun _ => .ok "yes" }

/-- Spec for the C6 witness. -/
def c6Spec : Spec :=
  { aider_config :=
      { model := "m", architect_mode := false, editable_files := []
        readonly_files := [], retries := 1 }
    objective := "o", implementation_details := "d", tasks := [] }

/-- Task with a `Command` evaluation for the C6 witness. -/
def c6Task : Task :=
  { name := "t", prompt := "p"
    evaluation := some { type := .command, command := some "mytool check"
                         check_prompt := some "Did it work?" } }

/-- C6 witness: the short-circuit theorem at a concrete input. -/
theorem C6_command_nonzero_short_circuit_witness :
    evaluateTask c6Env c6Spec c6Task "agent out" =
      ({ success := false
         error := some "Command failed with exit code 7: broken" },
       [Event.spawn ["mytool", "check"]]) ∧
    lmCount (evaluateTask c6Env c6Spec c6Task "agent out").2 = 0 := by
  have h := C6_command_nonzero_short_circuit c6Env c6Spec c6Task "agent out"
    { type := .command, command := some "mytool check"
      check_prompt := some "Did it work?" }
    { exitCode := 7, stdout := "partial", stderr := "broken" }
    rfl rfl (by decide) rfl (by decide)
  refine ⟨?_, h.2.1⟩
  rw [h.1]
  decide

/-- C7: a `Test`-type evaluation with no configured test command fails with
the configuration-error message and performs no external action at all
(empty event trace: no process spawned, no language-model query). -/
theorem C7_test_without_command (env : Env) (spec : Spec) (task : Task)
    (out : String) (ev : TaskEvaluation)
    (hev : task.evaluation = some ev) (hty : ev.type = .test)
    (hcmd : truthy spec.aider_config.test_command = false) :
    evaluateTask env spec task out =
      ({ success := false
         error := some "Test command not specified in aider_config.test_command" },
       []) := by
  obtain ⟨ty, cmd, cp0⟩ := ev
  cases hty
  simp [evaluateTask, hev, hcmd]

/-- Spec with no `test_command` for the C7 witness. -/
def c7Spec : Spec :=
  { aider_config :=
      { model := "m", architect_mode := false, editable_files := []
        readonly_files := [], retries := 2, test_command := none }
    objective := "o", implementation_details := "d", tasks := [] }

/-- Task with a `Test` evaluation for the C7 witness. -/
def c7Task : Task :=
  { name := "t", prompt := "p", evaluation := some { type := .test } }

/-- Concrete environment for the C7 witness. -/
def c7Env : Env :=
  { createBranch := .ok "wt", worktreeExists := true
    run := fun _ => .ok { exitCode := 0, stdout := "", stderr := "" }
    lm := fun _ => .ok "yes" }

/-- C7 witness: the configuration-error theorem at a concrete input. -/
theorem C7_test_without_command_witness :
    evaluateTask c7Env c7Spec c7Task "agent out" =
      ({ success := false
         error := some "Test command not specified in aider_config.test_command" },
       []) :=
  C7_test_without_command c7Env c7Spec c7Task "agent out"
    { type := .test } rfl rfl rfl

/-- Helper for C3: with a `Test` evaluation and no configured test command,
no attempt can ever succeed (a zero-exit agent run lands in the evaluator's
configuration error, every other outcome is an ordinary attempt failure), so
the retry loop always runs to full exhaustion, one attempt per unit of
remaining fuel. -/
theorem runAttempts_test_noCommand (env : Env) (spec : Spec) (task : Task)
    (prompt : String) (ev : TaskEvaluation)
    (hev : task.evaluation = some ev) (hty : ev.type = .test)
    (hcmd : truthy spec.aider_config.test_command = false) :
    ∀ fuel a le lo evs,
      (runAttempts env spec task prompt fuel a le lo evs).success = false ∧
      (runAttempts env spec task prompt fuel a le lo evs).attempts = a + fuel := by
  obtain ⟨ty, cmd, cp0⟩ := ev
  cases hty
  intro fuel
  induction fuel with
  | zero => intro a le lo evs; simp [runAttempts]
  | succ n ih =>
    intro a le lo evs
    simp only [runAttempts]
    cases hr : env.run (aiderArgv spec prompt) with
    | error msg =>
        have h := ih (a + 1) (classifyLaunchError msg) lo (evs ++ [Event.spawn (aiderArgv spec prompt)])
        exact ⟨h.1, by rw [h.2]; omega⟩
    | ok p =>
        by_cases hx : p.exitCode = 0
        · simp only [hx, ne_eq, not_true_eq_false, if_false, hev]
          have heval : evaluateTask env spec task p.stdout =
              ({ success := false
                 error := some "Test command not specified in aider_config.test_command" }, []) := by
            simp [evaluateTask, hev, hcmd]
          rw [heval]
          have h := ih (a + 1) "Test command not specified in aider_config.test_command" p.stdout
            (evs ++ [Event.spawn (aiderArgv spec prompt)] ++ [])
          exact ⟨h.1, h.2.trans (by omega)⟩
        · simp only [ne_eq, hx, not_false_iff, if_true]
          have h := ih (a + 1) (classifyAiderExit p.exitCode p.stderr) p.stdout
            (evs ++ [Event.spawn (aiderArgv spec prompt)])
          exact ⟨h.1, by rw [h.2]; omega⟩

/-- C3 amended: a configuration error (Test evaluation with no configured
test command) surfaces as that attempt's failure reason but is retried like
any other failure — the engine keeps making attempts until the configured
retry bound is exhausted, so the final attempt count always equals
`retries`. -/
theorem C3_amended_config_error_retried (env : Env) (spec : Spec)
    (task : Task) (nm cwd0 : String) (ev : TaskEvaluation) (w : String)
    (hev : task.evaluation = some ev) (hty : ev.type = .test)
    (hcmd : truthy spec.aider_config.test_command = false)
    (hbr : env.createBranch = .ok w) (hex : env.worktreeExists = true) :
    (executeTask env spec task nm cwd0).result.success = false ∧
    (executeTask env spec task nm cwd0).result.attempts =
      spec.aider_config.retries := by
  have h := runAttempts_test_noCommand env spec task (prepareTaskPrompt spec task)
    ev hev hty hcmd spec.aider_config.retries 0 "" "" []
  unfold executeTask
  rw [hbr]
  simp only [hex, Bool.not_true, Bool.false_eq_true, if_false]
  exact ⟨by simp [h.1], by simp [h.2]⟩

/-- Environment for the C3 counterexample: worktree acquired, the agent
always exits 0, the language model never consulted. -/
def c3Env : Env :=
  { createBranch := .ok "wt", worktreeExists := true
    run := fun _ => .ok { exitCode := 0, stdout := "out", stderr := "" }
    lm := fun _ => .ok "yes" }

/-- Spec with `retries = 2` and no `test_command` for the C3 counterexample. -/
def c3Spec : Spec :=
  { aider_config :=
      { model := "m", architect_mode := false, editable_files := []
        readonly_files := [], retries := 2, test_command := none }
    objective := "o", implementation_details := "d"
    tasks := [{ name := "t", prompt := "p", evaluation := some { type := .test } }] }

/-- Task with a `Test` evaluation for the C3 counterexample. -/
def c3Task : Task :=
  { name := "t", prompt := "p", evaluation := some { type := .test } }

/-- C3 counterexample: with 2 retries and a `Test` evaluation but no test
command, the first attempt surfaces the configuration error, yet the engine
makes a second attempt (attempts = 2, the agent is spawned twice) — the
configuration error is retried, contradicting the claim that no further
attempts follow it. -/
theorem C3_counterexample :
    (executeTask c3Env c3Spec c3Task "s" "/r").result.attempts = 2 ∧
    spawnCount (executeTask c3Env c3Spec c3Task "s" "/r").events = 2 ∧
    (executeTask c3Env c3Spec c3Task "s" "/r").result.error =
      some "Task failed after 2 attempts. Last error: Test command not specified in aider_config.test_command" := by
  decide

/-- C3 witness: the amended theorem at a concrete input. -/
theorem C3_amended_config_error_retried_witness :
    (executeTask c3Env c3Spec c3Task "s" "/r").result.success = false ∧
    (executeTask c3Env c3Spec c3Task "s" "/r").result.attempts =
      c3Spec.aider_config.retries :=
  C3_amended_config_error_retried c3Env c3Spec c3Task "s" "/r"
    { type := .test } "wt" rfl rfl rfl rfl rfl

/-- C8 amended: `result.output` is present — holding the retry loop's last
captured agent stdout, possibly empty — exactly when execution reaches the
retry loop, i.e. when branch creation succeeded and the worktree path
exists; on the acquisition-failure paths (which return before any agent
invocation) `output` is absent. -/
theorem C8_amended_output_presence (env : Env) (spec : Spec) (task : Task)
    (nm cwd0 : String) :
    ((executeTask env spec task nm cwd0).result.output).isSome =
      (match env.createBranch with
       | .ok _ => env.worktreeExists
       | .error _ => false) ∧
    ∀ w, env.createBranch = .ok w → env.worktreeExists = true →
      (executeTask env spec task nm cwd0).result.output =
        some (runAttempts env spec task (prepareTaskPrompt spec task)
                spec.aider_config.retries 0 "" "" []).lastOutput := by
  constructor
  · unfold executeTask
    cases h : env.createBranch with
    | error m => simp
    | ok w =>
      cases hw : env.worktreeExists with
      | false => simp
      | true => simp
  · intro w hbr hex
    unfold executeTask
    rw [hbr]
    simp [hex]

/-- Environment for the C8 counterexample: branch creation throws, so
`executeTask` takes the outer-catch path before any agent invocation. -/
def c8Env : Env :=
  { createBranch := .error "Branch creation failed: boom"
    worktreeExists := true
    run := fun _ => .ok { exitCode := 0, stdout := "done", stderr := "" }
    lm := fun _ => .ok "yes" }

/-- Environment for the C8 witness: worktree acquired, agent succeeds. -/
def c8OkEnv : Env :=
  { createBranch := .ok "wt", worktreeExists := true
    run := fun _ => .ok { exitCode := 0, stdout := "hello", stderr := "" }
    lm := fun _ => .ok "yes" }

/-- Spec for the C8 counterexample and witness. -/
def c8Spec : Spec :=
  { aider_config :=
      { model := "m", architect_mode := false, editable_files := []
        readonly_files := [], retries := 3 }
    objective := "o", implementation_details := "d"
    tasks := [{ name := "t", prompt := "p" }] }

/-- Task for the C8 counterexample and witness. -/
def c8Task : Task := { name := "t", prompt := "p" }

/-- C8 counterexample: when branch creation fails, the task fails before and
without any agent invocation, and the returned `TaskResult` has no `output`
field — refuting the claim that `output` is present on every executed task
including failures before any agent invocation. -/
theorem C8_counterexample :
    (executeTask c8Env c8Spec c8Task "s" "/r").result.output = none ∧
    (executeTask c8Env c8Spec c8Task "s" "/r").result.success = false ∧
    (executeTask c8Env c8Spec c8Task "s" "/r").result.attempts = 0 ∧
    spawnCount (executeTask c8Env c8Spec c8Task "s" "/r").events = 0 := by
  decide

/-- C8 witness: the amended theorem at a concrete input. -/
theorem C8_amended_output_presence_witness :
    (executeTask c8OkEnv c8Spec c8Task "s" "/r").result.output =
      some (runAttempts c8OkEnv c8Spec c8Task (prepareTaskPrompt c8Spec c8Task)
              c8Spec.aider_config.retries 0 "" "" []).lastOutput :=
  (C8_amended_output_presence c8OkEnv c8Spec c8Task "s" "/r").2 "wt" rfl rfl

/-- Helper for C2: every result except possibly the last one is a success —
the task loop breaks at the first failing result, so a failure can only sit
at the end of the results list. -/
theorem runTasks_dropLast_all (env : Nat → Env) (spec : Spec) (nm cwd : String) :
    ∀ (tasks : List Task) (idx : Nat),
      ((((runTasks env spec nm cwd idx tasks).results).dropLast).all
        fun r => r.success) = true := by
  intro tasks
  induction tasks with
  | nil => intro idx; simp [runTasks]
  | cons t rest ih =>
    intro idx
    cases hd : t.done with
    | true => simpa [runTasks_cons_done env spec nm cwd idx t rest hd] using ih (idx + 1)
    | false =>
      cases hs : (executeTask (env idx) spec t nm cwd).result.success with
      | false => simp [runTasks_cons_failure env spec nm cwd idx t rest hd hs]
      | true =>
        simp only [runTasks_cons_success env spec nm cwd idx t rest hd hs]
        cases hrec : (runTasks env spec nm cwd (idx + 1) rest).results with
        | nil => simp [hrec]
        | cons x xs =>
            have h := ih (idx + 1)
            rw [hrec] at h
            rw [List.dropLast_cons₂, List.all_cons, hs]
            simpa using h

/-- Helper for C2: the telemetry records (one per executed task, in
execution order) name exactly an initial segment of the pending
(not-`done`) tasks, in list order — tasks are processed strictly
sequentially and execution stops at the first failure. -/
theorem runTasks_telemetry_take (env : Nat → Env) (spec : Spec) (nm cwd : String) :
    ∀ (tasks : List Task) (idx : Nat), ∃ k,
      ((runTasks env spec nm cwd idx tasks).telemetry.map fun d => d.taskName) =
      (((tasks.filter fun t => !t.done).map fun t => t.name).take k) := by
  intro tasks
  induction tasks with
  | nil => intro idx; exact ⟨0, by simp [runTasks]⟩
  | cons t rest ih =>
    intro idx
    cases hd : t.done with
    | true =>
      obtain ⟨k, hk⟩ := ih (idx + 1)
      refine ⟨k, ?_⟩
      simp only [runTasks_cons_done env spec nm cwd idx t rest hd]
      rw [List.filter_cons_of_neg (by simp [hd])]
      exact hk
    | false =>
      cases hs : (executeTask (env idx) spec t nm cwd).result.success with
      | true =>
        obtain ⟨k, hk⟩ := ih (idx + 1)
        refine ⟨k + 1, ?_⟩
        simp only [runTasks_cons_success env spec nm cwd idx t rest hd hs,
          List.map_cons]
        rw [List.filter_cons_of_pos (by simp [hd])]
        simp only [List.map_cons, List.take_succ_cons, mkTelemetry]
        exact congrArg _ hk
      | false =>
        refine ⟨1, ?_⟩
        simp only [runTasks_cons_failure env spec nm cwd idx t rest hd hs,
          List.map_cons]
        rw [List.filter_cons_of_pos (by simp [hd])]
        simp [mkTelemetry]

/-- Environment for Scenario A of C2: the agent always exits 1. -/
def scenAEnv : Nat → Env := fun _ =>
  { createBranch := .ok "wt", worktreeExists := true
    run := fun _ => .ok { exitCode := 1, stdout := "out", stderr := "err" }
    lm := fun _ => .ok "yes" }

/-- First task of Scenario A. -/
def scenATask1 : Task := { name := "t1", prompt := "p1" }

/-- Second task of Scenario A (must stay untouched). -/
def scenATask2 : Task := { name := "t2", prompt := "p2" }

/-- Spec with `retries = 3` and two pending tasks for Scenario A. -/
def scenASpec : Spec :=
  { aider_config :=
      { model := "m", architect_mode := false, editable_files := []
        readonly_files := [], retries := 3 }
    objective := "o", implementation_details := "d"
    tasks := [scenATask1, scenATask2] }

/-- C2: `executeAllTasks` runs tasks strictly sequentially in list order and
halts at the first failing result: every non-final result is a success, the
telemetry names form an initial segment of the pending tasks in list order,
and concretely (Scenario A) with `retries = 3` and an always-failing agent
the only result is `{success := false, attempts := 3}` and the later task is
left untouched. -/
theorem C2_sequential_fail_fast :
    (∀ (env : Nat → Env) (spec : Spec) (nm cwd : String),
      ((((executeAllTasks env spec nm cwd).results).dropLast).all
        fun r => r.success) = true ∧
      ∃ k, ((executeAllTasks env spec nm cwd).telemetry.map fun d => d.taskName) =
           (((spec.tasks.filter fun t => !t.done).map fun t => t.name).take k)) ∧
    (executeAllTasks scenAEnv scenASpec "s" "/r").results =
      [{ success := false, attempts := 3
         error := some "Task failed after 3 attempts. Last error: Aider exited with code 1: err"
         output := some "out" }] ∧
    (executeAllTasks scenAEnv scenASpec "s" "/r").tasks =
      [scenATask1, scenATask2] := by
  refine ⟨fun env spec nm cwd =>
    ⟨runTasks_dropLast_all env spec nm cwd spec.tasks 0,
     runTasks_telemetry_take env spec nm cwd spec.tasks 0⟩, by decide, by decide⟩

/-- Helper for C9: `logLessons` produces one per-record append flag for
every input record (no record aborts the batch) and returns exactly the
number of `true` flags (records whose lesson was successfully appended). -/
theorem logLessons_count (env : LessonEnv) (root : String) :
    ∀ (ds : List TaskExecutionData) (i : Nat) (fs : Option String),
      (logLessons env root ds i fs).2.2.length = ds.length ∧
      (logLessons env root ds i fs).1 = (logLessons env root ds i fs).2.2.count true := by
  intro ds
  induction ds with
  | nil => intro i fs; simp [logLessons]
  | cons d rest ih =>
    intro i fs
    simp only [logLessons]
    obtain ⟨ok, fs1⟩ := logLesson env root fs d i
    have h := ih (i + 1) fs1
    refine ⟨?_, ?_⟩
    · simpa using h.1
    · cases ok with
      | true => simp only [List.count_cons]; rw [← h.2]; simp; omega
      | false => simp only [List.count_cons]; rw [← h.2]; simp

/-- Lessons environment for Scenario E of C9: the language model returns a
lesson, every file operation succeeds. -/
def scenEEnv : LessonEnv :=
  { lm := fun _ => .ok "L", timestamp := "T"
    createOk := fun _ => true, appendOk := fun _ => true }

/-- Lessons environment for the C9 partial-failure scenario: the append of
the second record (index 1) fails, everything else succeeds. -/
def scenE2Env : LessonEnv :=
  { lm := fun _ => .ok "L", timestamp := "T"
    createOk := fun _ => true, appendOk := fun i => !(i == 1) }

/-- First telemetry record for Scenario E. -/
def scenED1 : TaskExecutionData :=
  { specName := "s", taskName := "t1", attempts := 1, success := true
    output := some "o1" }

/-- Second telemetry record for Scenario E. -/
def scenED2 : TaskExecutionData :=
  { specName := "s", taskName := "t2", attempts := 1, success := true
    output := some "o2" }

/-- Third telemetry record for Scenario E. -/
def scenED3 : TaskExecutionData :=
  { specName := "s", taskName := "t3", attempts := 1, success := true
    output := some "o3" }

set_option maxRecDepth 8192 in
/-- C9: `logLessons` emits one append flag per input record in order and
never aborts the batch on a record's failure, and returns the count of
successfully appended records.  Concretely: a 3-record all-success run
appends exactly the 3 formatted sections in input order and returns 3
(Scenario E), and a run whose middle append fails still processes the later
record and returns 2, with the two successful sections appended in order. -/
theorem C9_lessons_pipeline :
    (∀ (env : LessonEnv) (root : String) (ds : List TaskExecutionData)
       (fs : Option String),
      (logLessons env root ds 0 fs).2.2.length = ds.length ∧
      (logLessons env root ds 0 fs).1 = (logLessons env root ds 0 fs).2.2.count true) ∧
    ((logLessons scenEEnv "/repo" [scenED1, scenED2, scenED3] 0 none).1 = 3 ∧
     (logLessons scenEEnv "/repo" [scenED1, scenED2, scenED3] 0 none).2.1 =
       some (lessonsHeader ++ formatLesson "T" scenED1 "L" ++
             formatLesson "T" scenED2 "L" ++ formatLesson "T" scenED3 "L")) ∧
    ((logLessons scenE2Env "/repo" [scenED1, scenED2, scenED3] 0 none).1 = 2 ∧
     (logLessons scenE2Env "/repo" [scenED1, scenED2, scenED3] 0 none).2.2 =
       [true, false, true] ∧
     (logLessons scenE2Env "/repo" [scenED1, scenED2, scenED3] 0 none).2.1 =
       some (lessonsHeader ++ formatLesson "T" scenED1 "L" ++
             formatLesson "T" scenED3 "L")) := by
  refine ⟨fun env root ds fs => logLessons_count env root ds 0 fs,
    ⟨by decide, by decide⟩, ⟨by decide, by decide, by decide⟩⟩

/-- Helper for C10: full characterization of the task loop.  The output task
list has the input's length; results and telemetry exist exactly for the
executed indices; executed indices are at least the starting index; an
executed index belonged to a pending (not-`done`) task and its output task
is the input task with `done := true` exactly when its execution succeeded;
every non-executed index keeps its input task untouched. -/
theorem runTasks_char (env : Nat → Env) (spec : Spec) (nm cwd : String) :
    ∀ (tasks : List Task) (idx : Nat),
      (runTasks env spec nm cwd idx tasks).tasks.length = tasks.length ∧
      (runTasks env spec nm cwd idx tasks).results.length =
        (runTasks env spec nm cwd idx tasks).executed.length ∧
      (runTasks env spec nm cwd idx tasks).telemetry.length =
        (runTasks env spec nm cwd idx tasks).executed.length ∧
      (∀ j ∈ (runTasks env spec nm cwd idx tasks).executed, idx ≤ j) ∧
      (∀ i, (idx + i) ∈ (runTasks env spec nm cwd idx tasks).executed →
        ∃ t, tasks[i]? = some t ∧ t.done = false ∧
          (runTasks env spec nm cwd idx tasks).tasks[i]? =
            some (if (executeTask (env (idx + i)) spec t nm cwd).result.success
                  then { t with done := true } else t)) ∧
      (∀ i, (idx + i) ∉ (runTasks env spec nm cwd idx tasks).executed →
        (runTasks env spec nm cwd idx tasks).tasks[i]? = tasks[i]?) := by
  intro tasks
  induction tasks with
  | nil =>
    intro idx
    refine ⟨rfl, rfl, rfl, ?_, ?_, ?_⟩
    · intro j hj; simp [runTasks] at hj
    · intro i hi; simp [runTasks] at hi
    · intro i _; rfl
  | cons t rest ih =>
    intro idx
    obtain ⟨ihlen, ihrl, ihtl, ihbound, ihmem, ihnot⟩ := ih (idx + 1)
    cases hd : t.done with
    | true =>
      rw [runTasks_cons_done env spec nm cwd idx t rest hd]
      refine ⟨by simpa using ihlen, ihrl, ihtl, ?_, ?_, ?_⟩
      · intro j hj; exact Nat.le_of_succ_le (ihbound j hj)
      · intro i hi
        cases i with
        | zero =>
            have := ihbound _ hi
            omega
        | succ n =>
            have hn : (idx + 1) + n ∈ (runTasks env spec nm cwd (idx + 1) rest).executed := by
              have he : (idx + 1) + n = idx + (n + 1) := by omega
              rw [he]; exact hi
            obtain ⟨t', ht', hdone, hget⟩ := ihmem n hn
            refine ⟨t', by simpa using ht', hdone, ?_⟩
            have he : idx + (n + 1) = (idx + 1) + n := by omega
            rw [he]
            simpa using hget
      · intro i hi
        cases i with
        | zero => simp
        | succ n =>
            have hn : (idx + 1) + n ∉ (runTasks env spec nm cwd (idx + 1) rest).executed := by
              have he : (idx + 1) + n = idx + (n + 1) := by omega
              rw [he]; exact hi
            simpa using ihnot n hn
    | false =>
      cases hs : (executeTask (env idx) spec t nm cwd).result.success with
      | true =>
        rw [runTasks_cons_success env spec nm cwd idx t rest hd hs]
        refine ⟨by simpa using ihlen, by simpa using ihrl, by simpa using ihtl,
          ?_, ?_, ?_⟩
        · intro j hj
          rcases List.mem_cons.mp hj with hj | hj
          · omega
          · exact Nat.le_of_succ_le (ihbound j hj)
        · intro i hi
          cases i with
          | zero =>
              refine ⟨t, by simp, hd, ?_⟩
              simp [hs]
          | succ n =>
              have hn : (idx + 1) + n ∈ (runTasks env spec nm cwd (idx + 1) rest).executed := by
                rcases List.mem_cons.mp hi with hj | hj
                · omega
                · have he : (idx + 1) + n = idx + (n + 1) := by omega
                  rw [he]; exact hj
              obtain ⟨t', ht', hdone, hget⟩ := ihmem n hn
              refine ⟨t', by simpa using ht', hdone, ?_⟩
              have he : idx + (n + 1) = (idx + 1) + n := by omega
              rw [he]
              simpa using hget
        · intro i hi
          cases i with
          | zero =>
              exfalso
              apply hi
              simp
          | succ n =>
              have hn : (idx + 1) + n ∉ (runTasks env spec nm cwd (idx + 1) rest).executed := by
                intro hj
                apply hi
                apply List.mem_cons_of_mem
                have he : idx + (n + 1) = (idx + 1) + n := by omega
                rw [he]; exact hj
              simpa using ihnot n hn
      | false =>
        rw [runTasks_cons_failure env spec nm cwd idx t rest hd hs]
        refine ⟨rfl, rfl, rfl, ?_, ?_, ?_⟩
        · intro j hj
          have : j = idx := by simpa using hj
          omega
        · intro i hi
          have hz : i = 0 := by
            have : idx + i = idx := by simpa using hi
            omega
          subst hz
          refine ⟨t, by simp, hd, ?_⟩
          simp [hs]
        · intro i _; rfl

/-- C10: `executeAllTasks` keeps the monotone done discipline — a task's
`done` flag is set to true exactly when its execution result succeeded, a
flag is never reverted from true to false (an executed task was pending, and
non-executed tasks are returned untouched), and a task whose `done` flag is
already true is skipped entirely: it is never among the executed indices,
and results and lesson telemetry exist only for executed indices. -/
theorem C10_done_discipline (env : Nat → Env) (spec : Spec) (nm cwd : String) :
    (executeAllTasks env spec nm cwd).tasks.length = spec.tasks.length ∧
    (executeAllTasks env spec nm cwd).results.length =
      (executeAllTasks env spec nm cwd).executed.length ∧
    (executeAllTasks env spec nm cwd).telemetry.length =
      (executeAllTasks env spec nm cwd).executed.length ∧
    (∀ i, i ∈ (executeAllTasks env spec nm cwd).executed →
      ∃ t, spec.tasks[i]? = some t ∧ t.done = false ∧
        (executeAllTasks env spec nm cwd).tasks[i]? =
          some (if (executeTask (env i) spec t nm cwd).result.success
                then { t with done := true } else t)) ∧
    (∀ i, i ∉ (executeAllTasks env spec nm cwd).executed →
      (executeAllTasks env spec nm cwd).tasks[i]? = spec.tasks[i]?) := by
  obtain ⟨h1, h2, h3, _h4, h5, h6⟩ := runTasks_char env spec nm cwd spec.tasks 0
  refine ⟨h1, h2, h3, ?_, ?_⟩
  · intro i hi
    have := h5 i (by simpa using hi)
    simpa using this
  · intro i hi
    have := h6 i (by simpa using hi)
    simpa using this

/-- Environment for the C10 witness: the agent succeeds immediately. -/
def w10Env : Nat → Env := fun _ =>
  { createBranch := .ok "wt", worktreeExists := true
    run := fun _ => .ok { exitCode := 0, stdout := "out", stderr := "" }
    lm := fun _ => .ok "yes" }

/-- A task already marked done for the C10 witness. -/
def w10TaskDone : Task := { name := "t0", done := true, prompt := "p0" }

/-- A pending task for the C10 witness. -/
def w10TaskPend : Task := { name := "t1", prompt := "p1" }

/-- Spec with one done and one pending task for the C10 witness. -/
def w10Spec : Spec :=
  { aider_config :=
      { model := "m", architect_mode := false, editable_files := []
        readonly_files := [], retries := 1 }
    objective := "o", implementation_details := "d"
    tasks := [w10TaskDone, w10TaskPend] }

/-- C10 witness: the discipline theorem at a concrete run where task 0 is
already done (skipped, untouched) and task 1 executes successfully. -/
theorem C10_done_discipline_witness :
    (executeAllTasks w10Env w10Spec "s" "/r").tasks[0]? = w10Spec.tasks[0]? ∧
    (∃ t, w10Spec.tasks[1]? = some t ∧ t.done = false ∧
      (executeAllTasks w10Env w10Spec "s" "/r").tasks[1]? =
        some (if (executeTask (w10Env 1) w10Spec t "s" "/r").result.success
              then { t with done := true } else t)) := by
  have h := C10_done_discipline w10Env w10Spec "s" "/r"
  exact ⟨h.2.2.2.2 0 (by decide), h.2.2.2.1 1 (by decide)⟩

end PSM
